import Mathlib

/-!
Verification development for the portal-conductor orchestration core.

The definitions below are a shallow embedding of the Python source:

* `formation.py` — the Formation job-service client and its OAuth2 token
  cache (`refresh_token`, `decode_token_expiry`);
* `portal_datastore.py` — the object-store adapter (`DataStore`), modelled
  as pure transformers over an explicit `DSState`;
* `portal_ldap.py` — the directory adapter, modelled over `LdapState`;
* `handlers/user_management.py` — the orchestrator endpoints
  (`add_user`-side datastore provisioning, `change_password`, `delete_user`,
  `delete_user_async` and its helpers).

Stateful code is embedded as explicit state passing; every mutating backend
call additionally appends an `Event` to a trace so that ordering and
"no call was made" properties can be stated.  Fallible code returns
`Except`/`Option`; an `Except.error` result models a Python exception
raised before the corresponding state was written.
-/

namespace PC

/-- Decidable equality for `Except`, needed to evaluate handler results
in witnesses and counterexamples. -/
instance exceptDecEq {e a : Type} [DecidableEq e] [DecidableEq a] :
    DecidableEq (Except e a) := fun x y =>
  match x, y with
  | .ok v, .ok w =>
    if h : v = w then isTrue (by rw [h])
    else isFalse (fun hc => by cases hc; exact h rfl)
  | .ok _, .error _ => isFalse (fun hc => by cases hc)
  | .error _, .ok _ => isFalse (fun hc => by cases hc)
  | .error v, .error w =>
    if h : v = w then isTrue (by rw [h])
    else isFalse (fun hc => by cases hc; exact h rfl)

/-! ## Token cache (formation.py, `Formation._refresh_token` and
`Formation._decode_token_expiry`) -/

/-- Token state held by the `Formation` client: `self._token` and
`self._token_expiry` (initially `None` and `0`). -/
structure TokenState where
  token : Option String
  token_expiry : Nat
deriving DecidableEq, Repr

/-- Decoded JWT payload; `exp` is `payload.get("exp", 0)`'s source field,
absent when the token has no expiry claim. -/
structure JwtPayload where
  exp : Option Nat
deriving DecidableEq, Repr

/-- Keycloak token-endpoint response: HTTP status, the JSON body's
`access_token` field (`none` models an absent key, whose lookup raises
`KeyError`), and `expires_in` (only logged by the source). -/
structure TokenResponse where
  status_code : Nat
  access_token : Option String
  expires_in : Option Nat
deriving DecidableEq, Repr

/-- Errors out of `_refresh_token`: `httpx.HTTPStatusError` from
`raise_for_status` on a non-2xx response, or the `KeyError` from
`token_data["access_token"]` when the key is missing. -/
inductive RefreshErr
  | httpStatus (code : Nat)
  | missingToken
deriving DecidableEq, Repr

/-- Predicate used by httpx's `raise_for_status`: the response is a
success iff its status code is in the 2xx range. -/
def is2xx (code : Nat) : Bool := 200 ≤ code && code < 300

/-- Embeds `Formation._decode_token_expiry`.  `jwtDecode` stands for
`jwt.decode(token, options={"verify_signature": False})`: `.error` models a
decode exception.  On an exception the source logs and returns `0`; on
success it returns `payload.get("exp", 0)`. -/
def decode_token_expiry (jwtDecode : String → Except String JwtPayload)
    (token : String) : Nat :=
  match jwtDecode token with
  | .ok payload => payload.exp.getD 0
  | .error _ => 0

/-- Embeds `Formation._refresh_token`.  The POST to the token endpoint is
represented by its response `resp`.  An `.error` result models an exception
raised before `self._token`/`self._token_expiry` are assigned, so the
previous `TokenState` persists; an `.ok` result is the new token state. -/
def refresh_token (jwtDecode : String → Except String JwtPayload)
    (resp : TokenResponse) (_st : TokenState) : Except RefreshErr TokenState :=
  if !is2xx resp.status_code then
    .error (.httpStatus resp.status_code)
  else
    match resp.access_token with
    | none => .error .missingToken
    | some tok =>
        .ok { token := some tok
              token_expiry := decode_token_expiry jwtDecode tok }

/-! ## Object store (portal_datastore.py, class `DataStore`) -/

/-- ACL row, embedding `iRODSAccess`: which `user_name` holds which
`access_name` on which `path`. -/
structure Access where
  path : String
  user_name : String
  access_name : String
deriving DecidableEq, Repr

/-- Observable object-store state: the set of user accounts, the set of
collections, the ACL rows, and the password table (most recent first). -/
structure DSState where
  users : List String
  collections : List String
  acls : List Access
  passwords : List (String × String)
deriving DecidableEq, Repr

/-- Job submission payload built by `delete_user_async`: the analysis
name and the `config` dict as an association list. -/
structure Submission where
  sub_name : String
  config : List (String × String)
deriving DecidableEq, Repr

/-- One backend call, recorded in traces.  `ds*` events are object-store
calls, `ldap*` events directory calls, `formation*` events job-service
calls. -/
inductive Event
  | dsCreateUser (u : String)
  | dsCreateColl (p : String)
  | dsChmod (u perm p : String)
  | dsSetPassword (u pw : String)
  | dsRemoveColl (p : String)
  | dsRemoveUser (u : String)
  | ldapSetPassword (u pw : String)
  | ldapShadowLastChange (u : String) (d : Nat)
  | ldapRemoveFromGroup (u g : String)
  | ldapDeleteUser (u : String)
  | formationLookupApp (app_name : String)
  | formationGetParams (app_id : String)
  | formationLaunch (app_id : String) (sub : Submission)
deriving DecidableEq, Repr

/-- Recognizer for job-service calls, used to state that an operation
touches no other backend. -/
def Event.isFormationCall : Event → Bool
  | .formationLookupApp _ => true
  | .formationGetParams _ => true
  | .formationLaunch _ _ => true
  | _ => false

/-- Embeds `DataStore.user_exists`: `session.users.get` succeeds iff the
account exists. -/
def user_exists (st : DSState) (u : String) : Bool := st.users.contains u

/-- Embeds `DataStore.user_home`: `iRODSPath(f"/{self.zone}/home/{username}")`. -/
def user_home (zone u : String) : String := "/" ++ zone ++ "/home/" ++ u

/-- Embeds `DataStore.path_exists` for the collection paths used by the
orchestrator (home collections are collections, not data objects). -/
def path_exists (st : DSState) (p : String) : Bool := st.collections.contains p

/-- Embeds `DataStore.chmod`: `session.acls.set(access)` replaces the
user's access row on the path with the new one. -/
def chmod (st : DSState) (u perm p : String) : DSState × List Event :=
  ({ st with acls :=
      Access.mk p u perm ::
        st.acls.filter (fun a => !(a.path == p && a.user_name == u)) },
   [Event.dsChmod u perm p])

/-- Embeds `DataStore.path_permissions`: `none` models the
`CollectionDoesNotExist` exception raised by `session.collections.get`
when the path exists as neither data object nor collection. -/
def path_permissions (st : DSState) (p : String) : Option (List Access) :=
  if st.collections.contains p then
    some (st.acls.filter (fun a => a.path == p))
  else none

/-- Embeds `DataStore.create_user` (success case of `session.users.create`). -/
def create_user (st : DSState) (u : String) : DSState × List Event :=
  ({ st with users := u :: st.users }, [Event.dsCreateUser u])

/-- Embeds `session.collections.create(path)`. -/
def create_collection (st : DSState) (p : String) : DSState × List Event :=
  ({ st with collections := p :: st.collections }, [Event.dsCreateColl p])

/-- Embeds `DataStore.change_password`:
`session.users.modify(username, "password", new_password)`. -/
def ds_change_password (st : DSState) (u pw : String) : DSState × List Event :=
  ({ st with passwords := (u, pw) :: st.passwords }, [Event.dsSetPassword u pw])

/-- Embeds `DataStore.health_check`: `server_version` stands for reading
`session.server_version`; any exception is caught and turned into `false`. -/
def health_check (server_version : Except String String) : Bool :=
  match server_version with
  | .ok _ => true
  | .error _ => false

/-- Embeds `DataStore.ensure_user_exists`: return early when the account
exists; otherwise create it, and create + chown the home collection only
when that collection is absent. -/
def ensure_user_exists (zone : String) (st : DSState) (u : String) :
    DSState × List Event :=
  if user_exists st u then (st, [])
  else
    let r1 := create_user st u
    let home := user_home zone u
    if path_exists r1.1 home then r1
    else
      let r2 := create_collection r1.1 home
      let r3 := chmod r2.1 u "own" home
      (r3.1, r1.2 ++ r2.2 ++ r3.2)

/-- Embeds `DataStore.create_datastore_user_with_permissions`.  The
first step calls `health_check` and ignores its result, exactly as the
source does.  `none` models the exception raised by `path_permissions`
when the home collection is absent at the read. -/
def create_datastore_user_with_permissions (zone : String)
    (server_version : Except String String) (st : DSState)
    (username password ipcservices_user ds_admin_user : String) :
    Option (DSState × List Event) :=
  let _ := health_check server_version
  let r1 := ensure_user_exists zone st username
  let r2 := ds_change_password r1.1 username password
  let home := user_home zone username
  match path_permissions r2.1 home with
  | none => none
  | some current_perms =>
    let ipcservices_owns := current_perms.any
      (fun a => a.user_name == ipcservices_user && a.access_name == "own")
    let r3 := if ipcservices_owns then (r2.1, ([] : List Event))
              else chmod r2.1 ipcservices_user "own" home
    let admin_owns := current_perms.any
      (fun a => a.user_name == ds_admin_user && a.access_name == "own")
    let r4 := if admin_owns then (r3.1, ([] : List Event))
              else chmod r3.1 ds_admin_user "own" home
    some (r4.1, r1.2 ++ r2.2 ++ r3.2 ++ r4.2)

/-- Embeds `DataStore.delete_home`: remove the home collection (and, with
`recurse=True`, everything under it — here its ACL rows) only when it
exists. -/
def delete_home (zone : String) (st : DSState) (u : String) :
    DSState × List Event :=
  let home := user_home zone u
  if path_exists st home then
    ({ st with collections := st.collections.filter (fun p => p != home)
               acls := st.acls.filter (fun a => a.path != home) },
     [Event.dsRemoveColl home])
  else (st, [])

/-- Embeds `DataStore.delete_user`:
`session.users.get(username, zone).remove()` (callers guard existence). -/
def ds_delete_user (st : DSState) (u : String) : DSState × List Event :=
  ({ st with users := st.users.filter (fun x => x != u) },
   [Event.dsRemoveUser u])

/-! ## Directory service (portal_ldap.py) -/

/-- Observable directory state: accounts (by uid), posix groups as
`(cn, memberUid list)` pairs, the password table and the
`shadowLastChange` attribute (most recent first). -/
structure LdapState where
  users : List String
  groups : List (String × List String)
  passwords : List (String × String)
  shadow : List (String × Nat)
deriving DecidableEq, Repr

/-- Embeds `portal_ldap.get_user`: the subtree search for
`(objectClass=posixAccount)(uid=username)` returns one entry per matching
account (empty when absent). -/
def ldap_get_user (st : LdapState) (u : String) : List String :=
  st.users.filter (fun x => x == u)

/-- Embeds `portal_ldap.get_user_groups` combined with the handler's
`_decode_group_name`: the cn of every posix group whose `memberUid` list
contains the user. -/
def get_user_groups (st : LdapState) (u : String) : List String :=
  (st.groups.filter (fun g => g.2.contains u)).map (fun g => g.1)

/-- Embeds `portal_ldap.remove_user_from_group`: `MOD_DELETE` of the
user's `memberUid` on the group entry. -/
def remove_user_from_group (st : LdapState) (u g : String) :
    LdapState × List Event :=
  ({ st with groups := (st.groups.map
      (fun p => if p.1 == g then (p.1, p.2.filter (fun x => x != u)) else p)) },
   [Event.ldapRemoveFromGroup u g])

/-- Embeds `portal_ldap.delete_user`: `delete_s` on the user's DN. -/
def ldap_delete_user (st : LdapState) (u : String) : LdapState × List Event :=
  ({ st with users := st.users.filter (fun x => x != u) },
   [Event.ldapDeleteUser u])

/-- Embeds `portal_ldap.change_password`: `passwd_s` on the user's DN. -/
def ldap_change_password (st : LdapState) (u pw : String) :
    LdapState × List Event :=
  ({ st with passwords := (u, pw) :: st.passwords },
   [Event.ldapSetPassword u pw])

/-- Embeds `portal_ldap.days_since_epoch`:
`(datetime.now(UTC) - epoch).days`, i.e. the whole-day count of the
current Unix time `now` (in seconds). -/
def days_since_epoch (now : Nat) : Nat := now / 86400

/-- Embeds `portal_ldap.shadow_last_change`: one `modify_s` call that
deletes and re-adds the `shadowLastChange` attribute. -/
def shadow_last_change (st : LdapState) (d : Nat) (u : String) :
    LdapState × List Event :=
  ({ st with shadow := (u, d) :: st.shadow },
   [Event.ldapShadowLastChange u d])

/-- Latest directory password of a user, reading the model's table. -/
def ldap_password_of (st : LdapState) (u : String) : Option String :=
  (st.passwords.find? (fun p => p.1 == u)).map (fun p => p.2)

/-- Latest object-store password of a user, reading the model's table. -/
def ds_password_of (st : DSState) (u : String) : Option String :=
  (st.passwords.find? (fun p => p.1 == u)).map (fun p => p.2)

/-! ## Orchestrator state and synchronous handlers
(handlers/user_management.py) -/

/-- Combined backend state seen by the orchestrator. -/
structure World where
  ldap : LdapState
  ds : DSState
deriving DecidableEq, Repr

/-- Embeds the handler `change_password` (`POST /users/.../password`):
directory password write, then the `shadowLastChange` marker write with
the current day count, then the object-store password write. -/
def change_password_handler (w : World) (username password : String)
    (now : Nat) : World × List Event :=
  let r1 := ldap_change_password w.ldap username password
  let dse := days_since_epoch now
  let r2 := shadow_last_change r1.1 dse username
  let r3 := ds_change_password w.ds username password
  ({ ldap := r2.1, ds := r3.1 }, r1.2 ++ r2.2 ++ r3.2)

/-- Embeds `_delete_user_from_datastore`: when the account exists, delete
the home collection (itself skip-if-absent) and then the account;
otherwise skip the whole branch. -/
def delete_user_from_datastore (zone : String) (st : DSState) (u : String) :
    DSState × List Event :=
  if user_exists st u then
    let r1 := delete_home zone st u
    let r2 := ds_delete_user r1.1 u
    (r2.1, r1.2 ++ r2.2)
  else (st, [])

/-- Models the handler's `for ug in user_groups` loop: remove the user
from each listed group in order, accumulating the events. -/
def remove_from_groups (st : LdapState) (u : String) :
    List String → LdapState × List Event
  | [] => (st, [])
  | g :: rest =>
    let r1 := remove_user_from_group st u g
    let r2 := remove_from_groups r1.1 u rest
    (r2.1, r1.2 ++ r2.2)

/-- Embeds `_delete_user_from_ldap`: skip when the user is absent; else
enumerate the user's groups once, remove the user from each, then delete
the account. -/
def delete_user_from_ldap (st : LdapState) (u : String) :
    LdapState × List Event :=
  if (ldap_get_user st u).isEmpty then (st, [])
  else
    let gs := get_user_groups st u
    let r1 := remove_from_groups st u gs
    let r2 := ldap_delete_user r1.1 u
    (r2.1, r1.2 ++ r2.2)

/-- Embeds the handler `delete_user` (`DELETE /users/...`): the datastore
branch runs first, then the directory branch. -/
def delete_user_handler (zone : String) (w : World) (u : String) :
    World × List Event :=
  let r1 := delete_user_from_datastore zone w.ds u
  let r2 := delete_user_from_ldap w.ldap u
  ({ ldap := r2.1, ds := r1.1 }, r1.2 ++ r2.2)

/-! ## Formation job-service handlers (handlers/user_management.py,
async deletion) -/

/-- Errors surfaced by the handlers: `http` embeds a `fastapi.HTTPException`
with its status code and detail; `upstream` embeds an exception propagated
unchanged from a Formation client call. -/
inductive AppError
  | http (status_code : Nat) (detail : String)
  | upstream (msg : String)
deriving DecidableEq, Repr

/-- Detail string of the 503 raised by `_ensure_formation_configured`. -/
def notConfiguredDetail : String := "Formation integration not configured."

/-- Detail string of the 500 raised by `_resolve_formation_app_id`. -/
def appIdDetail : String :=
  "Formation user deletion app ID not configured. Check that either user_deletion_app_id is set or user_deletion_app_name refers to a valid app."

/-- Detail string of the 500 raised by `_get_formation_app_username_param_id`. -/
def noParamDetail : String :=
  "Could not find username parameter in app configuration. Expected a parameter with label 'Username' or a visible required Text parameter."

/-- Formation-related module state from `handlers/dependencies.py`:
whether `get_formation_api()` returns a client, the cached
`_formation_app_id`, the configured app name and the system id.  `none`
for the app id / app name models a Python `None` or empty string (both
falsy where the source tests them). -/
structure FormationDeps where
  formation_configured : Bool
  formation_app_id : Option String
  formation_app_name : Option String
  formation_system_id : String
deriving DecidableEq, Repr

/-- Embeds `_ensure_formation_configured`: 503 when
`dependencies.get_formation_api()` is falsy. -/
def ensure_formation_configured (deps : FormationDeps) : Except AppError Unit :=
  if deps.formation_configured then .ok ()
  else .error (.http 503 notConfiguredDetail)

/-- Embeds `_resolve_formation_app_id`.  `lookup` stands for the
`formation_api.get_app_id_by_name` call: `.error` models an exception
(caught and logged by the source), `.ok none` a lookup returning `None`.
Returns the resolved id together with the (possibly updated) dependency
state, plus the trace of lookup calls made. -/
def resolve_formation_app_id (deps : FormationDeps)
    (lookup : Except String (Option String)) :
    Except AppError (String × FormationDeps) × List Event :=
  match deps.formation_app_id with
  | some appId => (.ok (appId, deps), [])
  | none =>
    match deps.formation_app_name with
    | some appName =>
      (match lookup with
       | .ok (some resolved) =>
           .ok (resolved, { deps with formation_app_id := some resolved })
       | .ok none => .error (.http 500 appIdDetail)
       | .error _ => .error (.http 500 appIdDetail),
       [Event.formationLookupApp appName])
    | none => (.error (.http 500 appIdDetail), [])

/-- One Formation app parameter as returned by `get_app_parameters`.
`label`, `ptype` (the JSON key `type`), `defaultValue` and `pname` (the
JSON key `name`) are optional JSON fields; `isVisible` and `required`
carry the `param.get(..., False)` default already applied. -/
structure AppParam where
  id : String
  label : Option String
  ptype : Option String
  isVisible : Bool
  required : Bool
  defaultValue : Option String
  pname : Option String
deriving DecidableEq, Repr

/-- One parameter group of the app configuration. -/
structure ParamGroup where
  parameters : List AppParam
deriving DecidableEq, Repr

/-- Python truthiness test used by the source on the `defaultValue` and
`name` fields: an absent key or an empty string is falsy. -/
def falsyStr : Option String → Bool
  | none => true
  | some s => s == ""

/-- Naive substring search on character lists. -/
def charsContain (needle : List Char) : List Char → Bool
  | [] => needle.isEmpty
  | c :: rest => needle.isPrefixOf (c :: rest) || charsContain needle rest

/-- Substring containment on strings, as Python's `in` operator. -/
def strContains (hay needle : String) : Bool :=
  charsContain needle.data hay.data

/-- ASCII lowercasing, as Python's `str.lower()` on the ASCII labels the
source compares. -/
def strToLower (s : String) : String := String.mk (s.data.map Char.toLower)

/-- Embeds the label test of strategy (1):
`"username" in label or "user name" in label` on the lowercased label. -/
def labelMatches (label : String) : Bool :=
  strContains (strToLower label) "username" ||
    strContains (strToLower label) "user name"

/-- Strategy (2) test: a visible, required `Text` parameter whose
`defaultValue` and `name` are falsy (`name=""` means positional
argument, not flag). -/
def isPositionalText (p : AppParam) : Bool :=
  p.ptype == some "Text" && p.isVisible && p.required &&
    falsyStr p.defaultValue && falsyStr p.pname

/-- Strategy (3) test: visible and required. -/
def isVisibleRequired (p : AppParam) : Bool := p.isVisible && p.required

/-- Embeds the three ordered strategies of
`_get_formation_app_username_param_id` applied inside one group: first a
label match, else the first positional text parameter, else the last
visible required parameter (the source iterates `reversed(parameters)`). -/
def group_username_param (params : List AppParam) : Option AppParam :=
  match params.find? (fun p => labelMatches (p.label.getD "")) with
  | some p => some p
  | none =>
    match params.find? isPositionalText with
    | some p => some p
    | none => params.reverse.find? isVisibleRequired

/-- Embeds `_get_formation_app_username_param_id`: walk the groups in
order, skip groups with an empty parameter list, and return the id found
in the first group where some strategy matches; raise a 500
`HTTPException` when no group yields a parameter. -/
def get_username_param_id (groups : List ParamGroup) : Except AppError String :=
  match groups.findSome? (fun g =>
      if g.parameters.isEmpty then none
      else (group_username_param g.parameters).map (fun p => p.id)) with
  | some pid => .ok pid
  | none => .error (.http 500 noParamDetail)

/-- Response body of `DELETE /async/users/...`. -/
structure AsyncDeleteResponse where
  user : String
  analysis_id : Option String
  status : String
deriving DecidableEq, Repr

/-- Launch response from `Formation.launch_analysis`, with the two fields
the handler reads (`result.get("analysis_id")`, `result.get("status", ...)`). -/
structure LaunchResult where
  analysis_id : Option String
  status : Option String
deriving DecidableEq, Repr

/-- Embeds the handler `delete_user_async` (`DELETE /async/users/...`).
`lookup` is the app-id lookup oracle (see `resolve_formation_app_id`),
`app_params` the configuration returned by `get_app_parameters`, and
`launch` the result of `launch_analysis` (`.error` models an exception
propagating out of that call).  `now` is `int(time.time())`.  Returns the
handler outcome, the updated dependency state, and the trace of backend
calls made. -/
def delete_user_async (deps : FormationDeps)
    (lookup : Except String (Option String))
    (app_params : List ParamGroup)
    (launch : Except String LaunchResult)
    (username : String) (now : Nat) :
    Except AppError AsyncDeleteResponse × FormationDeps × List Event :=
  match ensure_formation_configured deps with
  | .error e => (.error e, deps, [])
  | .ok _ =>
    match resolve_formation_app_id deps lookup with
    | (.error e, evs) => (.error e, deps, evs)
    | (.ok (appId, deps'), evs) =>
      match get_username_param_id app_params with
      | .error e => (.error e, deps', evs ++ [Event.formationGetParams appId])
      | .ok paramId =>
        let submission : Submission :=
          { sub_name := "user-deletion-" ++ username ++ "-" ++ toString now
            config := [(paramId, username)] }
        let tr := evs ++ [Event.formationGetParams appId,
                          Event.formationLaunch appId submission]
        match launch with
        | .error msg => (.error (.upstream msg), deps', tr)
        | .ok res =>
          (.ok { user := username
                 analysis_id := res.analysis_id
                 status := res.status.getD "Submitted" },
           deps', tr)

/-- Modelled from the spec for the C3 comparison, per group: the ordered
selection the spec describes, written with existence guards — (1) a
label-matching parameter when one exists, (2) else the first positional
text parameter when one exists, (3) else the last visible+required
parameter. -/
def spec_group_select (params : List AppParam) : Option AppParam :=
  if params.any (fun p => labelMatches (p.label.getD "")) then
    params.find? (fun p => labelMatches (p.label.getD ""))
  else if params.any isPositionalText then
    params.find? isPositionalText
  else
    (params.filter isVisibleRequired).getLast?

/-- Modelled from the spec for the C3 claim read globally over the whole
configuration: the same ordered strategies applied once to the
concatenation of all groups' parameter lists. -/
def claimed_username_param_global (groups : List ParamGroup) : Option String :=
  (spec_group_select ((groups.map (fun g => g.parameters)).flatten)).map
    (fun p => p.id)

example : user_home "z" "u" = "/z/home/u" := by decide

example :
    create_datastore_user_with_permissions "z" (.ok "4.3") ⟨[], [], [], []⟩
      "u" "pw" "ipc" "adm" =
    some (⟨["u"], ["/z/home/u"],
          [Access.mk "/z/home/u" "adm" "own",
           Access.mk "/z/home/u" "ipc" "own",
           Access.mk "/z/home/u" "u" "own"], [("u", "pw")]⟩,
          [Event.dsCreateUser "u", Event.dsCreateColl "/z/home/u",
           Event.dsChmod "u" "own" "/z/home/u",
           Event.dsSetPassword "u" "pw",
           Event.dsChmod "ipc" "own" "/z/home/u",
           Event.dsChmod "adm" "own" "/z/home/u"]) := by decide

/-! ## Helper lemmas -/

/-- The last filtered element is the first element of the reverse
satisfying the predicate. -/
theorem filter_getLast_eq_reverse_find {α : Type} (p : α → Bool) (l : List α) :
    (l.filter p).getLast? = l.reverse.find? p := by
  induction l with
  | nil => rfl
  | cons a t ih =>
    rw [List.filter_cons, List.reverse_cons, List.find?_append, ← ih]
    by_cases h : p a
    · simp only [h, if_true]
      cases hft : t.filter p with
      | nil => simp [h]
      | cons c cs =>
        cases hg : (c :: cs).getLast? with
        | none => simp at hg
        | some x => simp [List.getLast?_cons_cons, hg]
    · simp [h]

/-- Setting `perm` for a user on a path preserves any other user's row on
that path, and re-asserts an identical row of the same user. -/
theorem chmod_preserves_own (st : DSState) (x u p : String)
    (h : Access.mk p u "own" ∈ st.acls) :
    Access.mk p u "own" ∈ (chmod st x "own" p).1.acls := by
  unfold chmod
  by_cases hux : u = x
  · subst hux
    exact List.mem_cons_self _ _
  · apply List.mem_cons_of_mem
    refine List.mem_filter.2 ⟨h, ?_⟩
    simp [hux]

/-- The group-removal loop emits exactly one removal event per listed
group, in order. -/
theorem remove_from_groups_events (u : String) (gs : List String)
    (st : LdapState) :
    (remove_from_groups st u gs).2 =
      gs.map (fun g => Event.ldapRemoveFromGroup u g) := by
  induction gs generalizing st with
  | nil => rfl
  | cons g rest ih => simp [remove_from_groups, remove_user_from_group, ih]

/-- Every event traced by `resolve_formation_app_id` is an app lookup. -/
theorem resolve_events_are_lookups (deps : FormationDeps)
    (lookup : Except String (Option String))
    (res : Except AppError (String × FormationDeps)) (evs : List Event)
    (h : resolve_formation_app_id deps lookup = (res, evs)) :
    ∀ e ∈ evs, ∃ n, e = Event.formationLookupApp n := by
  have h2 : evs = (resolve_formation_app_id deps lookup).2 := by rw [h]
  subst h2
  unfold resolve_formation_app_id
  cases deps.formation_app_id with
  | some i => simp
  | none =>
    cases deps.formation_app_name with
    | some n => intro e he; simp at he; exact ⟨n, he⟩
    | none => simp

/-- A cached app id resolves immediately: no lookup call, no state change. -/
theorem resolve_cached (deps : FormationDeps)
    (lookup : Except String (Option String)) (i : String)
    (h : deps.formation_app_id = some i) :
    resolve_formation_app_id deps lookup = (.ok (i, deps), []) := by
  unfold resolve_formation_app_id
  rw [h]

/-! ## C1 — token refresh failure behaviour -/

/-- C1 counterexample: a 2xx token-endpoint response whose access token
cannot be decoded does NOT make `_refresh_token` raise — the refresh
returns normally, the previously stored token is replaced by the
malformed one, and the expiry is set to 0, contradicting the claim that
the previous token and expiry are left unchanged. -/
theorem refresh_malformed_token_cex :
    refresh_token (fun _ => .error "malformed")
        (TokenResponse.mk 200 (some "garbage") (some 300))
        (TokenState.mk (some "old-token") 999999)
      = .ok (TokenState.mk (some "garbage") 0)
  ∧ TokenState.mk (some "garbage") 0 ≠ TokenState.mk (some "old-token") 999999 := by
  exact ⟨rfl, by decide⟩

/-- C1 amended: a non-2xx response, or a 2xx response with no access
token, raises and leaves the stored token and expiry untouched (the
error is thrown before the fields are assigned); but a 2xx response
whose access token is malformed does not raise — the new token is stored
with expiry 0.  When decoding succeeds the expiry is the payload's `exp`
(0 when absent). -/
theorem refresh_token_amended (jd : String → Except String JwtPayload)
    (resp : TokenResponse) (st : TokenState) :
    (is2xx resp.status_code = false →
      refresh_token jd resp st = .error (.httpStatus resp.status_code))
  ∧ (is2xx resp.status_code = true → resp.access_token = none →
      refresh_token jd resp st = .error .missingToken)
  ∧ (∀ tok msg, is2xx resp.status_code = true → resp.access_token = some tok →
      jd tok = .error msg →
      refresh_token jd resp st = .ok (TokenState.mk (some tok) 0))
  ∧ (∀ tok payload, is2xx resp.status_code = true →
      resp.access_token = some tok → jd tok = .ok payload →
      refresh_token jd resp st = .ok (TokenState.mk (some tok) (payload.exp.getD 0))) := by
  refine ⟨?_, ?_, ?_, ?_⟩
  · intro h
    simp [refresh_token, h]
  · intro h h2
    simp [refresh_token, h, h2]
  · intro tok msg h h2 h3
    simp [refresh_token, decode_token_expiry, h, h2, h3]
  · intro tok payload h h2 h3
    simp [refresh_token, decode_token_expiry, h, h2, h3]

/-- C1 witness: the amended theorem applied at concrete inputs — a 404
response raises, and a 2xx response with an undecodable token yields the
new token with expiry 0. -/
theorem refresh_token_amended_witness :
    refresh_token (fun _ => .error "bad") (TokenResponse.mk 404 none none)
        (TokenState.mk (some "t0") 50)
      = .error (.httpStatus 404)
  ∧ refresh_token (fun _ => .error "bad") (TokenResponse.mk 200 (some "g") none)
        (TokenState.mk (some "t0") 50)
      = .ok (TokenState.mk (some "g") 0) := by
  constructor
  · exact (refresh_token_amended (fun _ => .error "bad")
      (TokenResponse.mk 404 none none) (TokenState.mk (some "t0") 50)).1
      (by decide)
  · exact (refresh_token_amended (fun _ => .error "bad")
      (TokenResponse.mk 200 (some "g") none) (TokenState.mk (some "t0") 50)).2.2.1
      "g" "bad" (by decide) rfl rfl

/-! ## C3 — username-parameter resolution -/

/-- Within one group, the source's three sequential loops compute exactly
the spec's ordered selection. -/
theorem group_select_eq (params : List AppParam) :
    group_username_param params = spec_group_select params := by
  unfold group_username_param spec_group_select
  cases hl : params.find? (fun p => labelMatches (p.label.getD "")) with
  | some q =>
    have hq := List.find?_some hl
    have hqm := List.mem_of_find?_eq_some hl
    rw [if_pos (List.any_eq_true.2 ⟨q, hqm, hq⟩)]
  | none =>
    have hno : params.any (fun p => labelMatches (p.label.getD "")) = false := by
      rw [List.any_eq_false]
      intro x hx
      exact List.find?_eq_none.1 hl x hx
    rw [if_neg (by simp [hno])]
    cases hp : params.find? isPositionalText with
    | some q =>
      have hq := List.find?_some hp
      have hqm := List.mem_of_find?_eq_some hp
      rw [if_pos (List.any_eq_true.2 ⟨q, hqm, hq⟩)]
    | none =>
      have hno2 : params.any isPositionalText = false := by
        rw [List.any_eq_false]
        intro x hx
        exact List.find?_eq_none.1 hp x hx
      rw [if_neg (by simp [hno2]), filter_getLast_eq_reverse_find]

/-- C3 counterexample: with an unlabeled required visible Text parameter
in the first group and a parameter labeled "Username" in the second
group, the code selects the first group's parameter "p1", while the
claim's ordered selection over the whole configuration selects the
labeled parameter "p2" — the label strategy does not take precedence
across group boundaries. -/
theorem username_param_cross_group_cex :
    get_username_param_id
        [ParamGroup.mk [AppParam.mk "p1" none (some "Text") true true none none],
         ParamGroup.mk
           [AppParam.mk "p2" (some "Username") (some "Text") true true none none]]
      = .ok "p1"
  ∧ claimed_username_param_global
        [ParamGroup.mk [AppParam.mk "p1" none (some "Text") true true none none],
         ParamGroup.mk
           [AppParam.mk "p2" (some "Username") (some "Text") true true none none]]
      = some "p2"
  ∧ ("p1" : String) ≠ "p2" := by
  refine ⟨by decide, by decide, by decide⟩

/-- C3 amended: resolution is applied group by group, in order, and the
result comes from the first group yielding a match; within a group the
spec's ordered strategies apply exactly — (1) label containing
"username"/"user name" case-insensitively, (2) else first visible
required positional Text parameter without default, (3) else last
visible+required parameter — and the handler fails with the 500
configuration error when no group yields a parameter.  A labeled
parameter therefore wins over unlabeled ones only within its own group. -/
theorem username_param_per_group (groups : List ParamGroup) :
    get_username_param_id groups =
      match groups.findSome?
          (fun g => (spec_group_select g.parameters).map (fun p => p.id)) with
      | some pid => Except.ok pid
      | none => Except.error (.http 500 noParamDetail) := by
  have hf : (fun g : ParamGroup =>
        if g.parameters.isEmpty then none
        else (group_username_param g.parameters).map (fun p => p.id))
      = (fun g : ParamGroup =>
        (spec_group_select g.parameters).map (fun p => p.id)) := by
    funext g
    cases hp : g.parameters with
    | nil => simp [hp, spec_group_select]
    | cons a t => simp [hp, group_select_eq]
  unfold get_username_param_id
  rw [hf]

/-- An access list whose path-filtered rows report an "own" entry for a
user contains that user's own-row on the path. -/
theorem any_own_mem (l : List Access) (p x : String)
    (h : (List.filter (fun a => a.path == p) l).any
        (fun a => a.user_name == x && a.access_name == "own") = true) :
    Access.mk p x "own" ∈ l := by
  obtain ⟨a, ha, hfa⟩ := List.any_eq_true.1 h
  obtain ⟨hal, hap⟩ := List.mem_filter.1 ha
  simp only [Bool.and_eq_true] at hfa
  obtain ⟨h1, h2⟩ := hfa
  obtain ⟨p1, p2, p3⟩ := a
  simp only [beq_iff_eq] at hap h1 h2
  subst hap
  subst h1
  subst h2
  exact hal

/-- An own-row survives a chmod layer for any (possibly equal) user on
the same path. -/
theorem mem_chmod_cons (l : List Access) (x u p : String)
    (h : Access.mk p u "own" ∈ l) :
    Access.mk p u "own" ∈
      Access.mk p x "own" ::
        l.filter (fun a => !(a.path == p && a.user_name == x)) := by
  by_cases hux : u = x
  · subst hux
    exact List.mem_cons_self _ _
  · exact List.mem_cons_of_mem _ (List.mem_filter.2 ⟨h, by simp [hux]⟩)

/-- Re-running datastore provisioning on a state that already has the
account, the home collection, and both service-principal own-rows only
rewrites the password: no create and no chmod calls are made. -/
theorem second_run_noop (zone : String) (sv2 : Except String String)
    (st : DSState) (u pw2 ipc adm : String)
    (hmem : u ∈ st.users) (hcoll : user_home zone u ∈ st.collections)
    (hipc : Access.mk (user_home zone u) ipc "own" ∈ st.acls)
    (hadm : Access.mk (user_home zone u) adm "own" ∈ st.acls) :
    create_datastore_user_with_permissions zone sv2 st u pw2 ipc adm =
      some ({ st with passwords := (u, pw2) :: st.passwords },
            [Event.dsSetPassword u pw2]) := by
  unfold create_datastore_user_with_permissions ensure_user_exists
  have hipc2 : (List.filter (fun a => a.path == user_home zone u) st.acls).any
      (fun a => a.user_name == ipc && a.access_name == "own") = true :=
    List.any_eq_true.2 ⟨_, List.mem_filter.2 ⟨hipc, by simp⟩, by simp⟩
  have hadm2 : (List.filter (fun a => a.path == user_home zone u) st.acls).any
      (fun a => a.user_name == adm && a.access_name == "own") = true :=
    List.any_eq_true.2 ⟨_, List.mem_filter.2 ⟨hadm, by simp⟩, by simp⟩
  simp [user_exists, path_exists, path_permissions, ds_change_password,
    List.elem_iff, hmem, hcoll, hipc2, hadm2]

/-- Facts holding after every successful run of
`create_datastore_user_with_permissions`: the account and home collection
exist; neither is recreated when already present; the owner's own-row is
present whenever the home collection was created by this run; and both
service principals hold own on the home collection. -/
theorem create_datastore_facts (zone : String)
    (sv : Except String String) (st : DSState) (u pw ipc adm : String)
    (st2 : DSState) (tr : List Event)
    (h : create_datastore_user_with_permissions zone sv st u pw ipc adm
          = some (st2, tr)) :
    u ∈ st2.users ∧ user_home zone u ∈ st2.collections
  ∧ (u ∈ st.users → st2.users = st.users)
  ∧ (user_home zone u ∈ st.collections → st2.collections = st.collections)
  ∧ (user_home zone u ∉ st.collections →
      Access.mk (user_home zone u) u "own" ∈ st2.acls)
  ∧ Access.mk (user_home zone u) ipc "own" ∈ st2.acls
  ∧ Access.mk (user_home zone u) adm "own" ∈ st2.acls := by
  unfold create_datastore_user_with_permissions ensure_user_exists at h
  by_cases hu : u ∈ st.users
  · by_cases hh : user_home zone u ∈ st.collections
    · simp only [user_exists, path_exists, path_permissions, create_user,
        create_collection, ds_change_password, chmod, List.elem_iff, hu, hh,
        if_true, if_false, ite_true, ite_false] at h
      split at h <;> rename_i hc1 <;> split at h <;> rename_i hc2 <;>
        (rw [Option.some.injEq, Prod.mk.injEq] at h
         obtain ⟨h1, h2⟩ := h
         subst h1
         dsimp only)
      · exact ⟨hu, hh, fun _ => rfl, fun _ => rfl, fun hx => absurd hh hx,
          any_own_mem st.acls _ ipc hc2, any_own_mem st.acls _ adm hc1⟩
      · exact ⟨hu, hh, fun _ => rfl, fun _ => rfl, fun hx => absurd hh hx,
          List.mem_cons_self _ _,
          mem_chmod_cons _ ipc adm _ (any_own_mem st.acls _ adm hc1)⟩
      · exact ⟨hu, hh, fun _ => rfl, fun _ => rfl, fun hx => absurd hh hx,
          mem_chmod_cons _ adm ipc _ (any_own_mem st.acls _ ipc hc2),
          List.mem_cons_self _ _⟩
      · exact ⟨hu, hh, fun _ => rfl, fun _ => rfl, fun hx => absurd hh hx,
          mem_chmod_cons _ adm ipc _ (List.mem_cons_self _ _),
          List.mem_cons_self _ _⟩
    · simp only [user_exists, path_exists, path_permissions, create_user,
        create_collection, ds_change_password, chmod, List.elem_iff, hu, hh,
        if_true, if_false, ite_true, ite_false] at h
      simp at h
  · by_cases hh : user_home zone u ∈ st.collections
    · simp only [user_exists, path_exists, path_permissions, create_user,
        create_collection, ds_change_password, chmod, List.elem_iff, hu, hh,
        if_true, if_false, ite_true, ite_false] at h
      split at h <;> rename_i hc1 <;> split at h <;> rename_i hc2 <;>
        (rw [Option.some.injEq, Prod.mk.injEq] at h
         obtain ⟨h1, h2⟩ := h
         subst h1
         dsimp only)
      · exact ⟨List.mem_cons_self _ _, hh, fun hx => absurd hx hu,
          fun _ => rfl, fun hx => absurd hh hx,
          any_own_mem st.acls _ ipc hc2, any_own_mem st.acls _ adm hc1⟩
      · exact ⟨List.mem_cons_self _ _, hh, fun hx => absurd hx hu,
          fun _ => rfl, fun hx => absurd hh hx,
          List.mem_cons_self _ _,
          mem_chmod_cons _ ipc adm _ (any_own_mem st.acls _ adm hc1)⟩
      · exact ⟨List.mem_cons_self _ _, hh, fun hx => absurd hx hu,
          fun _ => rfl, fun hx => absurd hh hx,
          mem_chmod_cons _ adm ipc _ (any_own_mem st.acls _ ipc hc2),
          List.mem_cons_self _ _⟩
      · exact ⟨List.mem_cons_self _ _, hh, fun hx => absurd hx hu,
          fun _ => rfl, fun hx => absurd hh hx,
          mem_chmod_cons _ adm ipc _ (List.mem_cons_self _ _),
          List.mem_cons_self _ _⟩
    · simp only [user_exists, path_exists, path_permissions, create_user,
        create_collection, ds_change_password, chmod, List.elem_iff, hu, hh,
        if_true, if_false, ite_true, ite_false, List.contains_cons,
        List.mem_cons, beq_self_eq_true, Bool.true_or, Bool.or_true,
        true_or, or_true, eq_self_iff_true] at h
      split at h <;> rename_i hc1 <;> split at h <;> rename_i hc2 <;>
        (rw [Option.some.injEq, Prod.mk.injEq] at h
         obtain ⟨h1, h2⟩ := h
         subst h1
         dsimp only)
      · exact ⟨List.mem_cons_self _ _, List.mem_cons_self _ _,
          fun hx => absurd hx hu, fun hx => absurd hx hh,
          fun _ => List.mem_cons_self _ _,
          any_own_mem _ _ ipc hc2, any_own_mem _ _ adm hc1⟩
      · exact ⟨List.mem_cons_self _ _, List.mem_cons_self _ _,
          fun hx => absurd hx hu, fun hx => absurd hx hh,
          fun _ => mem_chmod_cons _ ipc u _ (List.mem_cons_self _ _),
          List.mem_cons_self _ _,
          mem_chmod_cons _ ipc adm _ (any_own_mem _ _ adm hc1)⟩
      · exact ⟨List.mem_cons_self _ _, List.mem_cons_self _ _,
          fun hx => absurd hx hu, fun hx => absurd hx hh,
          fun _ => mem_chmod_cons _ adm u _ (List.mem_cons_self _ _),
          mem_chmod_cons _ adm ipc _ (any_own_mem _ _ ipc hc2),
          List.mem_cons_self _ _⟩
      · exact ⟨List.mem_cons_self _ _, List.mem_cons_self _ _,
          fun hx => absurd hx hu, fun hx => absurd hx hh,
          fun _ => mem_chmod_cons _ adm u _
            (mem_chmod_cons _ ipc u _ (List.mem_cons_self _ _)),
          mem_chmod_cons _ adm ipc _ (List.mem_cons_self _ _),
          List.mem_cons_self _ _⟩

/-- C2: for every starting object-store state, a successful run of the
datastore half of add_user (`create_datastore_user_with_permissions`)
leaves the account and its home collection existing, creates each only
when absent (an existing account or home collection is left as is), and
whenever the home collection was created by this call the owning user is
granted "own" on it. -/
theorem create_datastore_account_and_home (zone : String)
    (sv : Except String String) (st : DSState) (u pw ipc adm : String)
    (st2 : DSState) (tr : List Event)
    (h : create_datastore_user_with_permissions zone sv st u pw ipc adm
          = some (st2, tr)) :
    u ∈ st2.users ∧ user_home zone u ∈ st2.collections
  ∧ (u ∈ st.users → st2.users = st.users)
  ∧ (user_home zone u ∈ st.collections → st2.collections = st.collections)
  ∧ (user_home zone u ∉ st.collections →
      Access.mk (user_home zone u) u "own" ∈ st2.acls) := by
  obtain ⟨h1, h2, h3, h4, h5, _, _⟩ :=
    create_datastore_facts zone sv st u pw ipc adm st2 tr h
  exact ⟨h1, h2, h3, h4, h5⟩

/-- C2 witness: the theorem applied to a run from the empty object store,
whose outcome is computed concretely. -/
theorem create_datastore_account_and_home_witness :
    "u" ∈ (DSState.mk ["u"] ["/z/home/u"]
        [Access.mk "/z/home/u" "adm" "own", Access.mk "/z/home/u" "ipc" "own",
         Access.mk "/z/home/u" "u" "own"] [("u", "pw")]).users
  ∧ user_home "z" "u" ∈ (DSState.mk ["u"] ["/z/home/u"]
        [Access.mk "/z/home/u" "adm" "own", Access.mk "/z/home/u" "ipc" "own",
         Access.mk "/z/home/u" "u" "own"] [("u", "pw")]).collections := by
  have hx := create_datastore_account_and_home "z" (.ok "4.3")
    (DSState.mk [] [] [] []) "u" "pw" "ipc" "adm"
    (DSState.mk ["u"] ["/z/home/u"]
      [Access.mk "/z/home/u" "adm" "own", Access.mk "/z/home/u" "ipc" "own",
       Access.mk "/z/home/u" "u" "own"] [("u", "pw")])
    [Event.dsCreateUser "u", Event.dsCreateColl "/z/home/u",
     Event.dsChmod "u" "own" "/z/home/u", Event.dsSetPassword "u" "pw",
     Event.dsChmod "ipc" "own" "/z/home/u", Event.dsChmod "adm" "own" "/z/home/u"]
    (by decide)
  exact ⟨hx.1, hx.2.1⟩

/-- C5 counterexample: starting from a state where the account and home
collection already exist but the ACL is empty, provisioning succeeds yet
the final ACL has no "own" entry for the owning user — the owner grant
happens only when the home collection is created, so the claimed
invariant fails for this reachable starting state. -/
theorem acl_owner_missing_cex :
    create_datastore_user_with_permissions "z" (.ok "4.3")
        (DSState.mk ["u"] ["/z/home/u"] [] []) "u" "pw" "ipc" "adm"
      = some (DSState.mk ["u"] ["/z/home/u"]
              [Access.mk "/z/home/u" "adm" "own",
               Access.mk "/z/home/u" "ipc" "own"] [("u", "pw")],
             [Event.dsSetPassword "u" "pw",
              Event.dsChmod "ipc" "own" "/z/home/u",
              Event.dsChmod "adm" "own" "/z/home/u"])
  ∧ Access.mk "/z/home/u" "u" "own" ∉
      [Access.mk "/z/home/u" "adm" "own", Access.mk "/z/home/u" "ipc" "own"] := by
  exact ⟨by decide, by decide⟩

/-- C5 amended: after every successful provisioning run the home
collection ACL holds "own" for the ipcservices and admin principals, and
for the owning user whenever the home collection was created during the
call (a pre-existing home collection is not granted to the owner); for
the two service principals the ACL is read first and a chmod happens only
when the entry is absent — re-running the provisioning on the resulting
state performs no chmod at all, only the unconditional password write. -/
theorem create_datastore_acl_invariant (zone : String)
    (sv : Except String String) (st : DSState) (u pw ipc adm : String)
    (st2 : DSState) (tr : List Event)
    (h : create_datastore_user_with_permissions zone sv st u pw ipc adm
          = some (st2, tr)) :
    Access.mk (user_home zone u) ipc "own" ∈ st2.acls
  ∧ Access.mk (user_home zone u) adm "own" ∈ st2.acls
  ∧ (user_home zone u ∉ st.collections →
      Access.mk (user_home zone u) u "own" ∈ st2.acls)
  ∧ (∀ sv2 pw2,
      create_datastore_user_with_permissions zone sv2 st2 u pw2 ipc adm =
        some ({ st2 with passwords := (u, pw2) :: st2.passwords },
              [Event.dsSetPassword u pw2])) := by
  obtain ⟨hmem, hcoll, _, _, hown, hipc, hadm⟩ :=
    create_datastore_facts zone sv st u pw ipc adm st2 tr h
  exact ⟨hipc, hadm, hown,
    fun sv2 pw2 => second_run_noop zone sv2 st2 u pw2 ipc adm hmem hcoll hipc hadm⟩

/-- C5 witness: the amended theorem applied to a run from the empty
object store; the re-run equation is instantiated concretely. -/
theorem create_datastore_acl_invariant_witness :
    Access.mk "/z/home/u" "ipc" "own" ∈ (DSState.mk ["u"] ["/z/home/u"]
        [Access.mk "/z/home/u" "adm" "own", Access.mk "/z/home/u" "ipc" "own",
         Access.mk "/z/home/u" "u" "own"] [("u", "pw")]).acls
  ∧ create_datastore_user_with_permissions "z" (.error "down")
      (DSState.mk ["u"] ["/z/home/u"]
        [Access.mk "/z/home/u" "adm" "own", Access.mk "/z/home/u" "ipc" "own",
         Access.mk "/z/home/u" "u" "own"] [("u", "pw")]) "u" "pw2" "ipc" "adm"
    = some ({ DSState.mk ["u"] ["/z/home/u"]
        [Access.mk "/z/home/u" "adm" "own", Access.mk "/z/home/u" "ipc" "own",
         Access.mk "/z/home/u" "u" "own"] [("u", "pw")] with
          passwords := ("u", "pw2") :: [("u", "pw")] },
        [Event.dsSetPassword "u" "pw2"]) := by
  have hx := create_datastore_acl_invariant "z" (.ok "4.3")
    (DSState.mk [] [] [] []) "u" "pw" "ipc" "adm"
    (DSState.mk ["u"] ["/z/home/u"]
      [Access.mk "/z/home/u" "adm" "own", Access.mk "/z/home/u" "ipc" "own",
       Access.mk "/z/home/u" "u" "own"] [("u", "pw")])
    [Event.dsCreateUser "u", Event.dsCreateColl "/z/home/u",
     Event.dsChmod "u" "own" "/z/home/u", Event.dsSetPassword "u" "pw",
     Event.dsChmod "ipc" "own" "/z/home/u", Event.dsChmod "adm" "own" "/z/home/u"]
    (by decide)
  exact ⟨hx.1, hx.2.2.2 (.error "down") "pw2"⟩

/-- C6: synchronous deletion emits exactly this trace — inside the
datastore branch the home-collection removal (itself skipped when the
collection is absent) precedes the account removal, and inside the
directory branch every group removal precedes the account deletion; each
branch is empty when the user is absent from that backend, and on a user
absent from both backends the handler is a complete no-op. -/
theorem delete_user_sync_props (zone : String) (w : World) (u : String) :
    (delete_user_handler zone w u).2 =
      ((if user_exists w.ds u then
          (if path_exists w.ds (user_home zone u) then
            [Event.dsRemoveColl (user_home zone u)] else [])
          ++ [Event.dsRemoveUser u]
        else [])
       ++
       (if (ldap_get_user w.ldap u).isEmpty then []
        else (get_user_groups w.ldap u).map
              (fun g => Event.ldapRemoveFromGroup u g)
            ++ [Event.ldapDeleteUser u]))
  ∧ (user_exists w.ds u = false → (ldap_get_user w.ldap u).isEmpty = true →
      delete_user_handler zone w u = (w, [])) := by
  constructor
  · unfold delete_user_handler delete_user_from_datastore
      delete_user_from_ldap delete_home ds_delete_user ldap_delete_user
    by_cases h1 : user_exists w.ds u <;>
      by_cases h2 : path_exists w.ds (user_home zone u) <;>
      by_cases h3 : (ldap_get_user w.ldap u).isEmpty <;>
      simp [h1, h2, h3, remove_from_groups_events]
  · intro h1 h3
    unfold delete_user_handler delete_user_from_datastore delete_user_from_ldap
    simp [h1, h3]

/-- C6 witness: the no-op part of the theorem applied to a user absent
from both backends. -/
theorem delete_user_sync_props_witness :
    delete_user_handler "z"
      (World.mk (LdapState.mk [] [] [] []) (DSState.mk [] [] [] [])) "ghost"
      = (World.mk (LdapState.mk [] [] [] []) (DSState.mk [] [] [] []), []) :=
  (delete_user_sync_props "z"
    (World.mk (LdapState.mk [] [] [] []) (DSState.mk [] [] [] [])) "ghost").2
    (by decide) (by decide)

/-- C9: the password-change handler performs exactly three writes in
order — directory password, directory shadowLastChange marker set to the
whole-day count of the current Unix time, object-store password — and
running it twice with different passwords leaves the second password in
effect in both backends. -/
theorem change_password_three_writes (w : World) (u pw : String) (now : Nat) :
    (change_password_handler w u pw now).2 =
      [Event.ldapSetPassword u pw,
       Event.ldapShadowLastChange u (days_since_epoch now),
       Event.dsSetPassword u pw]
  ∧ (∀ pw2 now2,
      ldap_password_of
        ((change_password_handler
            ((change_password_handler w u pw now).1) u pw2 now2).1).ldap u
        = some pw2
    ∧ ds_password_of
        ((change_password_handler
            ((change_password_handler w u pw now).1) u pw2 now2).1).ds u
        = some pw2) := by
  constructor
  · rfl
  · intro pw2 now2
    constructor <;>
      simp [change_password_handler, ldap_change_password, shadow_last_change,
        ds_change_password, ldap_password_of, ds_password_of]

/-- C4: every job the async deletion launches carries the submission name
"user-deletion-<username>-<unix time>" and a config mapping exactly the
resolved username-parameter id to the username; and the whole operation
makes job-service calls only — no object-store or directory mutation
happens in-process. -/
theorem async_delete_submission_shape (deps : FormationDeps)
    (lookup : Except String (Option String)) (app_params : List ParamGroup)
    (launch : Except String LaunchResult) (u : String) (now : Nat)
    (appId : String) (sub : Submission)
    (h : Event.formationLaunch appId sub
          ∈ (delete_user_async deps lookup app_params launch u now).2.2) :
    sub.sub_name = "user-deletion-" ++ u ++ "-" ++ toString now
  ∧ (∃ pid, get_username_param_id app_params = .ok pid
      ∧ sub.config = [(pid, u)])
  ∧ (∀ e ∈ (delete_user_async deps lookup app_params launch u now).2.2,
      e.isFormationCall = true) := by
  unfold delete_user_async at h ⊢
  cases hc : ensure_formation_configured deps with
  | error e =>
    rw [hc] at h
    simp at h
  | ok uu =>
    rw [hc] at h
    rcases hres : resolve_formation_app_id deps lookup with ⟨res, evs⟩
    have hev := resolve_events_are_lookups deps lookup res evs hres
    rw [hres] at h
    cases res with
    | error e =>
      simp only at h
      obtain ⟨n, hn⟩ := hev _ h
      exact absurd hn (by simp)
    | ok pr =>
      rcases pr with ⟨appId2, deps2⟩
      cases hp : get_username_param_id app_params with
      | error e =>
        rw [hp] at h
        simp only at h
        rcases List.mem_append.1 h with hin | hin
        · obtain ⟨n, hn⟩ := hev _ hin
          exact absurd hn (by simp)
        · simp at hin
      | ok pid =>
        cases hl : launch with
        | error msg =>
          rw [hp, hl] at h
          simp only at h ⊢
          rcases List.mem_append.1 h with hin | hin
          · obtain ⟨n, hn⟩ := hev _ hin
            exact absurd hn (by simp)
          · rcases List.mem_cons.1 hin with heq | hin2
            · exact absurd heq (by simp)
            · rcases List.mem_cons.1 hin2 with heq | hin3
              · injection heq with ha hs
                subst hs
                refine ⟨rfl, ⟨pid, rfl, rfl⟩, ?_⟩
                intro e2 he
                rcases List.mem_append.1 he with hi | hi
                · obtain ⟨n, hn⟩ := hev _ hi
                  subst hn
                  rfl
                · rcases List.mem_cons.1 hi with rfl | hi2
                  · rfl
                  · rcases List.mem_cons.1 hi2 with rfl | hi3
                    · rfl
                    · simp at hi3
              · simp at hin3
        | ok res2 =>
          rw [hp, hl] at h
          simp only at h ⊢
          rcases List.mem_append.1 h with hin | hin
          · obtain ⟨n, hn⟩ := hev _ hin
            exact absurd hn (by simp)
          · rcases List.mem_cons.1 hin with heq | hin2
            · exact absurd heq (by simp)
            · rcases List.mem_cons.1 hin2 with heq | hin3
              · injection heq with ha hs
                subst hs
                refine ⟨rfl, ⟨pid, rfl, rfl⟩, ?_⟩
                intro e2 he
                rcases List.mem_append.1 he with hi | hi
                · obtain ⟨n, hn⟩ := hev _ hi
                  subst hn
                  rfl
                · rcases List.mem_cons.1 hi with rfl | hi2
                  · rfl
                  · rcases List.mem_cons.1 hi2 with rfl | hi3
                    · rfl
                    · simp at hi3
              · simp at hin3

/-- A successful resolution leaves the returned dependency state with the
returned app id cached. -/
theorem resolve_ok_caches (deps : FormationDeps)
    (lookup : Except String (Option String)) (a : String)
    (d : FormationDeps) (evs : List Event)
    (h : resolve_formation_app_id deps lookup = (.ok (a, d), evs)) :
    d.formation_app_id = some a := by
  unfold resolve_formation_app_id at h
  cases hai : deps.formation_app_id with
  | some i =>
    rw [hai] at h
    simp only [Prod.mk.injEq] at h
    obtain ⟨h1, h2⟩ := h
    simp only [Except.ok.injEq, Prod.mk.injEq] at h1
    obtain ⟨h3, h4⟩ := h1
    subst h3
    subst h4
    exact hai
  | none =>
    rw [hai] at h
    cases han : deps.formation_app_name with
    | none =>
      rw [han] at h
      simp at h
    | some n =>
      rw [han] at h
      cases hl : lookup with
      | error m =>
        rw [hl] at h
        simp at h
      | ok o =>
        rw [hl] at h
        cases o with
        | none => simp at h
        | some r =>
          simp only [Prod.mk.injEq] at h
          obtain ⟨h1, h2⟩ := h
          simp only [Except.ok.injEq, Prod.mk.injEq] at h1
          obtain ⟨h3, h4⟩ := h1
          subst h3
          subst h4
          rfl

/-- With a cached app id, no async-deletion run makes an app-lookup call. -/
theorem async_no_lookup_when_cached (deps : FormationDeps)
    (lookup : Except String (Option String)) (app_params : List ParamGroup)
    (launch : Except String LaunchResult) (u : String) (now : Nat)
    (i : String) (hc : deps.formation_app_id = some i) :
    ∀ e ∈ (delete_user_async deps lookup app_params launch u now).2.2,
      ∀ n, e ≠ Event.formationLookupApp n := by
  unfold delete_user_async
  cases hcf : ensure_formation_configured deps with
  | error e => simp
  | ok uu =>
    rw [resolve_cached deps lookup i hc]
    cases hp : get_username_param_id app_params with
    | error e => simp
    | ok pid =>
      cases hl : launch with
      | error msg => simp
      | ok res => simp

/-- A successful async deletion leaves the dependency state with the app
id cached. -/
theorem async_success_has_cache (deps : FormationDeps)
    (lookup : Except String (Option String)) (app_params : List ParamGroup)
    (launch : Except String LaunchResult) (u : String) (now : Nat)
    (resp : AsyncDeleteResponse)
    (h : (delete_user_async deps lookup app_params launch u now).1 = .ok resp) :
    ∃ i, (delete_user_async deps lookup app_params launch u now).2.1.formation_app_id
          = some i := by
  unfold delete_user_async at h ⊢
  cases hc : ensure_formation_configured deps with
  | error e =>
    rw [hc] at h
    simp at h
  | ok uu =>
    rw [hc] at h
    rcases hres : resolve_formation_app_id deps lookup with ⟨res, evs⟩
    rw [hres] at h
    cases res with
    | error e => simp at h
    | ok pr =>
      rcases pr with ⟨a, d⟩
      have hd := resolve_ok_caches deps lookup a d evs hres
      cases hp : get_username_param_id app_params with
      | error e =>
        rw [hp] at h
        simp at h
      | ok pid =>
        cases hl : launch with
        | error msg =>
          rw [hp, hl] at h
          simp at h
        | ok res2 =>
          exact ⟨a, hd⟩

/-- C7: the async deletion fails with a 503 (ServiceUnavailable) when the
job backend is not configured; a cached app id is used directly with no
lookup call; an uncached id triggers exactly one by-name lookup whose
success is cached so that any later resolution — and any later deletion
request on the updated state — performs zero lookups; and when no app id
can be resolved by either path the handler fails with the 500
configuration error. -/
theorem async_resolution_caching (deps : FormationDeps)
    (lookup : Except String (Option String)) (app_params : List ParamGroup)
    (launch : Except String LaunchResult) (u : String) (now : Nat) :
    (deps.formation_configured = false →
      (delete_user_async deps lookup app_params launch u now).1
        = .error (.http 503 notConfiguredDetail))
  ∧ (∀ i, deps.formation_app_id = some i →
      resolve_formation_app_id deps lookup = (.ok (i, deps), []))
  ∧ (∀ n r, deps.formation_app_id = none → deps.formation_app_name = some n →
      lookup = .ok (some r) →
      resolve_formation_app_id deps lookup =
        (.ok (r, { deps with formation_app_id := some r }),
         [Event.formationLookupApp n])
      ∧ (∀ lookup2, resolve_formation_app_id
          { deps with formation_app_id := some r } lookup2
          = (.ok (r, { deps with formation_app_id := some r }), [])))
  ∧ (deps.formation_app_id = none →
      (deps.formation_app_name = none ∨ lookup = .ok none ∨
        ∃ m, lookup = .error m) →
      (resolve_formation_app_id deps lookup).1
        = .error (.http 500 appIdDetail))
  ∧ (∀ i, deps.formation_app_id = some i →
      ∀ e ∈ (delete_user_async deps lookup app_params launch u now).2.2,
        ∀ n, e ≠ Event.formationLookupApp n)
  ∧ (∀ resp, (delete_user_async deps lookup app_params launch u now).1 = .ok resp →
      ∃ i, (delete_user_async deps lookup app_params launch u now).2.1.formation_app_id
            = some i) := by
  refine ⟨?_, ?_, ?_, ?_, ?_, ?_⟩
  · intro hcfg
    unfold delete_user_async ensure_formation_configured
    rw [hcfg]
    simp
  · intro i hi
    exact resolve_cached deps lookup i hi
  · intro n r h1 h2 h3
    constructor
    · unfold resolve_formation_app_id
      rw [h1, h2, h3]
    · intro lookup2
      exact resolve_cached _ lookup2 r rfl
  · intro h1 h2
    unfold resolve_formation_app_id
    rw [h1]
    rcases h2 with h2 | h2 | ⟨m, h2⟩
    · rw [h2]
    · cases hn : deps.formation_app_name with
      | none => rfl
      | some nm => rw [h2]
    · cases hn : deps.formation_app_name with
      | none => rfl
      | some nm => rw [h2]
  · intro i hi
    exact async_no_lookup_when_cached deps lookup app_params launch u now i hi
  · intro resp hresp
    exact async_success_has_cache deps lookup app_params launch u now resp hresp

/-- C7 witness: the theorem applied concretely — an unconfigured backend
yields the 503, a by-name lookup resolves and caches the id, and the
cached state resolves with no lookup event. -/
theorem async_resolution_caching_witness :
    (delete_user_async (FormationDeps.mk false none none "de") (.ok none) []
        (.ok (LaunchResult.mk none none)) "u" 5).1
      = .error (.http 503 notConfiguredDetail)
  ∧ resolve_formation_app_id
      (FormationDeps.mk true none (some "del-app") "de") (.ok (some "abc"))
      = (.ok ("abc", FormationDeps.mk true (some "abc") (some "del-app") "de"),
         [Event.formationLookupApp "del-app"])
  ∧ resolve_formation_app_id
      (FormationDeps.mk true (some "abc") (some "del-app") "de") (.ok none)
      = (.ok ("abc", FormationDeps.mk true (some "abc") (some "del-app") "de"),
         []) := by
  refine ⟨?_, ?_, ?_⟩
  · exact (async_resolution_caching (FormationDeps.mk false none none "de")
      (.ok none) [] (.ok (LaunchResult.mk none none)) "u" 5).1 rfl
  · exact ((async_resolution_caching
      (FormationDeps.mk true none (some "del-app") "de") (.ok (some "abc"))
      [] (.ok (LaunchResult.mk none none)) "u" 5).2.2.1 "del-app" "abc"
      rfl rfl rfl).1
  · exact ((async_resolution_caching
      (FormationDeps.mk true none (some "del-app") "de") (.ok (some "abc"))
      [] (.ok (LaunchResult.mk none none)) "u" 5).2.2.1 "del-app" "abc"
      rfl rfl rfl).2 (.ok none)

/-- C10: whenever the async deletion returns successfully, the launch
call succeeded, and the reported status is the backend's status field
when present and the literal "Submitted" when the field is absent. -/
theorem async_status_default (deps : FormationDeps)
    (lookup : Except String (Option String)) (app_params : List ParamGroup)
    (launch : Except String LaunchResult) (u : String) (now : Nat)
    (resp : AsyncDeleteResponse)
    (h : (delete_user_async deps lookup app_params launch u now).1 = .ok resp) :
    ∃ res, launch = .ok res
      ∧ resp.status = res.status.getD "Submitted"
      ∧ (res.status = none → resp.status = "Submitted")
      ∧ (∀ s, res.status = some s → resp.status = s) := by
  unfold delete_user_async at h
  cases hc : ensure_formation_configured deps with
  | error e =>
    rw [hc] at h
    simp at h
  | ok uu =>
    rw [hc] at h
    rcases hres : resolve_formation_app_id deps lookup with ⟨res, evs⟩
    rw [hres] at h
    cases res with
    | error e => simp at h
    | ok pr =>
      rcases pr with ⟨a, d⟩
      cases hp : get_username_param_id app_params with
      | error e =>
        rw [hp] at h
        simp at h
      | ok pid =>
        cases hl : launch with
        | error msg =>
          rw [hp, hl] at h
          simp at h
        | ok res2 =>
          rw [hp, hl] at h
          simp only at h
          injection h with h2
          subst h2
          refine ⟨res2, rfl, rfl, ?_, ?_⟩
          · intro hs
            simp [hs]
          · intro s0 hs
            simp [hs]

/-- C10 witness: the theorem applied to a backend response with no status
field, yielding the default "Submitted". -/
theorem async_status_default_witness :
    ∃ res, (Except.ok (LaunchResult.mk (some "a1") none)
            : Except String LaunchResult) = .ok res
      ∧ (AsyncDeleteResponse.mk "bob" (some "a1") "Submitted").status
          = res.status.getD "Submitted"
      ∧ (res.status = none →
          (AsyncDeleteResponse.mk "bob" (some "a1") "Submitted").status
            = "Submitted")
      ∧ (∀ s, res.status = some s →
          (AsyncDeleteResponse.mk "bob" (some "a1") "Submitted").status = s) :=
  async_status_default (FormationDeps.mk true (some "app1") none "de") (.ok none)
    [ParamGroup.mk
      [AppParam.mk "p2" (some "Username") (some "Text") true true none none]]
    (.ok (LaunchResult.mk (some "a1") none)) "bob" 123
    (AsyncDeleteResponse.mk "bob" (some "a1") "Submitted") (by decide)

/-- C4 witness: the submission-shape theorem applied to a concrete launch
from a cached app id and a single "Username"-labeled parameter. -/
theorem async_delete_submission_shape_witness :
    (Submission.mk "user-deletion-bob-123" [("p2", "bob")]).sub_name
      = "user-deletion-" ++ "bob" ++ "-" ++ toString (123 : Nat)
  ∧ (∃ pid, get_username_param_id
        [ParamGroup.mk
          [AppParam.mk "p2" (some "Username") (some "Text") true true none none]]
        = .ok pid
      ∧ (Submission.mk "user-deletion-bob-123" [("p2", "bob")]).config
          = [(pid, "bob")]) := by
  have hx := async_delete_submission_shape
    (FormationDeps.mk true (some "app1") none "de") (.ok none)
    [ParamGroup.mk
      [AppParam.mk "p2" (some "Username") (some "Text") true true none none]]
    (.ok (LaunchResult.mk (some "a1") none)) "bob" 123 "app1"
    (Submission.mk "user-deletion-bob-123" [("p2", "bob")]) (by decide)
  exact ⟨hx.1, hx.2.1⟩

/-- C8 counterexample: three orchestrator places where an adapter error is
not propagated — the datastore health check catches any exception and
returns False; account provisioning ignores the failing health check and
completes; and an app-id lookup exception is caught and replaced by the
500 configuration error. -/
theorem adapter_error_swallowed_cex :
    health_check (.error "connection refused") = false
  ∧ create_datastore_user_with_permissions "z" (.error "connection refused")
        (DSState.mk [] [] [] []) "u" "pw" "ipc" "adm"
      = some (DSState.mk ["u"] ["/z/home/u"]
              [Access.mk "/z/home/u" "adm" "own",
               Access.mk "/z/home/u" "ipc" "own",
               Access.mk "/z/home/u" "u" "own"] [("u", "pw")],
             [Event.dsCreateUser "u", Event.dsCreateColl "/z/home/u",
              Event.dsChmod "u" "own" "/z/home/u",
              Event.dsSetPassword "u" "pw",
              Event.dsChmod "ipc" "own" "/z/home/u",
              Event.dsChmod "adm" "own" "/z/home/u"])
  ∧ (resolve_formation_app_id
        (FormationDeps.mk true none (some "portal-delete-user") "de")
        (.error "boom")).1 = .error (.http 500 appIdDetail) := by
  exact ⟨rfl, by decide, by decide⟩

/-- C8 amended: adapter errors generally propagate unchanged — a job
launch failure surfaces to the async-deletion caller as the same
exception — with these exceptions: the object-store health check catches
every error and returns False, account provisioning ignores the health
check result entirely (its outcome does not depend on it), and an app-id
lookup exception during async deletion is caught, logged, and replaced by
the 500 configuration error. -/
theorem error_propagation_amended (deps : FormationDeps)
    (lookup : Except String (Option String)) (app_params : List ParamGroup)
    (u : String) (now : Nat) (zone : String) (st : DSState)
    (pw ipc adm : String) :
    (∀ msg i pid, deps.formation_configured = true →
      deps.formation_app_id = some i →
      get_username_param_id app_params = .ok pid →
      (delete_user_async deps lookup app_params (.error msg) u now).1
        = .error (.upstream msg))
  ∧ (∀ m, health_check (.error m) = false)
  ∧ (∀ sv sv2, create_datastore_user_with_permissions zone sv st u pw ipc adm
      = create_datastore_user_with_permissions zone sv2 st u pw ipc adm)
  ∧ (∀ n m, deps.formation_app_id = none → deps.formation_app_name = some n →
      (resolve_formation_app_id deps (.error m)).1
        = .error (.http 500 appIdDetail)) := by
  refine ⟨?_, fun m => rfl, fun sv sv2 => rfl, ?_⟩
  · intro msg i pid hcfg hid hp
    unfold delete_user_async ensure_formation_configured
    rw [hcfg]
    rw [resolve_cached deps lookup i hid]
    rw [hp]
    simp
  · intro n m h1 h2
    unfold resolve_formation_app_id
    rw [h1, h2]

/-- C8 witness: the amended theorem applied concretely — a launch failure
propagates as the same upstream error, and a lookup exception is replaced
by the 500 configuration error. -/
theorem error_propagation_amended_witness :
    (delete_user_async (FormationDeps.mk true (some "app1") none "de") (.ok none)
        [ParamGroup.mk
          [AppParam.mk "p2" (some "Username") (some "Text") true true none none]]
        (.error "boom") "bob" 123).1 = .error (.upstream "boom")
  ∧ (resolve_formation_app_id
        (FormationDeps.mk true none (some "del-app") "de") (.error "net")).1
      = .error (.http 500 appIdDetail) := by
  constructor
  · exact (error_propagation_amended (FormationDeps.mk true (some "app1") none "de")
      (.ok none)
      [ParamGroup.mk
        [AppParam.mk "p2" (some "Username") (some "Text") true true none none]]
      "bob" 123 "z" (DSState.mk [] [] [] []) "pw" "ipc" "adm").1
      "boom" "app1" "p2" rfl rfl (by decide)
  · exact (error_propagation_amended (FormationDeps.mk true none (some "del-app") "de")
      (.error "net") [] "bob" 123 "z" (DSState.mk [] [] [] [])
      "pw" "ipc" "adm").2.2.2 "del-app" "net" rfl rfl

end PC
